import Mathlib

/-!
Verification development for the jdrones position-control environments
(`src/jdrones/envs/position.py`).

The embedding models the numeric values flowing through the environment as
exact rationals extended with a NaN element (`Flt`), mirroring the IEEE
behaviours that the source actually relies on: NaN propagates through
arithmetic, every ordered comparison involving NaN is false, and `isnan`
detects it.  `np.linalg.norm` is embedded with an integer-square-root based
monotone rational square root; no claim depends on the precision of the
square root, only on its monotonicity, its value at 0, and NaN propagation.

The inner dynamics model (`LQRDroneEnv`) is external to the source file and
is modelled abstractly by the interface the source uses: a `step` function,
a `reset` function, the authoritative `state` accessor, and the LQR
controller error accessor `controllers["lqr"].e`.
-/

/-- Rationals extended with a NaN element, modelling the float values the
source manipulates.  `nan` stands for IEEE NaN. -/
inductive Flt where
  | nan : Flt
  | val (q : ℚ) : Flt
deriving DecidableEq

namespace Flt

/-- NaN-propagating addition. -/
def add : Flt → Flt → Flt
  | val a, val b => val (a + b)
  | _, _ => nan

/-- NaN-propagating subtraction. -/
def sub : Flt → Flt → Flt
  | val a, val b => val (a - b)
  | _, _ => nan

/-- NaN-propagating multiplication. -/
def mul : Flt → Flt → Flt
  | val a, val b => val (a * b)
  | _, _ => nan

/-- NaN-propagating division; division by zero yields NaN. -/
def div : Flt → Flt → Flt
  | val a, val b => if b = 0 then nan else val (a / b)
  | _, _ => nan

/-- Absolute value; NaN maps to NaN. -/
def fabs : Flt → Flt
  | nan => nan
  | val a => val |a|

/-- Strict less-than as in IEEE: any comparison with NaN is false. -/
def lt : Flt → Flt → Bool
  | val a, val b => decide (a < b)
  | _, _ => false

/-- The isnan test (`np.isnan`). -/
def isNaN : Flt → Bool
  | nan => true
  | val _ => false

instance : Add Flt := ⟨add⟩
instance : Sub Flt := ⟨sub⟩
instance : Mul Flt := ⟨mul⟩
instance : Div Flt := ⟨div⟩

/-- Largest `r ≤ bound` with `r * r ≤ n` (structurally recursive integer
square root helper). -/
def isqrtGo (n : ℕ) : ℕ → ℕ
  | 0 => 0
  | r + 1 => if (r + 1) * (r + 1) ≤ n then r + 1 else isqrtGo n r

/-- Integer square root: the largest `r` with `r * r ≤ n`. -/
def isqrt (n : ℕ) : ℕ := isqrtGo n n

/-- Monotone rational square root used to embed `np.linalg.norm`; exact on
perfect squares and at 0, which is all the development relies on. -/
def sqrtq (q : ℚ) : ℚ :=
  if q ≤ 0 then 0 else (isqrt (q.num.toNat * q.den) : ℚ) / (q.den : ℚ)

/-- NaN-propagating square root of a (non-negative) value. -/
def fsqrt : Flt → Flt
  | nan => nan
  | val q => val (sqrtq q)

/-- Sum of a list of values; NaN-propagating, 0 on the empty list. -/
def sum (l : List Flt) : Flt := l.foldr add (val 0)

/-- Euclidean norm of a list of values (`np.linalg.norm`): square root of
the sum of squares; NaN whenever any entry is NaN. -/
def norm (l : List Flt) : Flt := fsqrt (sum (l.map fun x => x * x))

end Flt

/-- A 3-vector of values. -/
structure Vec3 where
  x : Flt
  y : Flt
  z : Flt
deriving DecidableEq

namespace Vec3

/-- Componentwise subtraction (numpy broadcasting on 3-vectors). -/
def sub (a b : Vec3) : Vec3 := ⟨a.x - b.x, a.y - b.y, a.z - b.z⟩

/-- The components as a list, for norms and concatenation. -/
def toList (v : Vec3) : List Flt := [v.x, v.y, v.z]

/-- The zero vector, e.g. the `(0, 0, 0)` velocity assignment. -/
def zero : Vec3 := ⟨.val 0, .val 0, .val 0⟩

end Vec3

/-- Orientation quaternion components. -/
structure Quat where
  qx : Flt
  qy : Flt
  qz : Flt
  qw : Flt
deriving DecidableEq

/-- The four actuator (propeller) magnitudes. -/
structure Act4 where
  P0 : Flt
  P1 : Flt
  P2 : Flt
  P3 : Flt
deriving DecidableEq

/-- The jdrones `State`: position, quaternion, Euler angles, linear
velocity, angular velocity, actuator magnitudes (20 scalars). -/
structure State where
  pos : Vec3
  quat : Quat
  rpy : Vec3
  vel : Vec3
  ang : Vec3
  prop : Act4
deriving DecidableEq

namespace State

/-- Modelled from the spec: `State()` constructs an all-zero state vector,
whose sub-fields (`pos`, `vel`) can then be assigned without disturbing
the rest (jdrones.data_models is not under src/). -/
def default : State :=
  ⟨Vec3.zero, ⟨.val 0, .val 0, .val 0, .val 0⟩, Vec3.zero, Vec3.zero, Vec3.zero,
   ⟨.val 0, .val 0, .val 0, .val 0⟩⟩

/-- Modelled from the spec: `State.to_x` flattens the state into the
20-component vector `[x y z qx qy qz qw phi theta psi vx vy vz p q r
P0 P1 P2 P3]` fed to the inner model. -/
def to_x (s : State) : List Flt :=
  [s.pos.x, s.pos.y, s.pos.z,
   s.quat.qx, s.quat.qy, s.quat.qz, s.quat.qw,
   s.rpy.x, s.rpy.y, s.rpy.z,
   s.vel.x, s.vel.y, s.vel.z,
   s.ang.x, s.ang.y, s.ang.z,
   s.prop.P0, s.prop.P1, s.prop.P2, s.prop.P3]

end State

/-- The 20 scalar state variables, named as in the long-form dataframe
produced by `States.to_df`. -/
inductive Var where
  | x | y | z
  | qx | qy | qz | qw
  | phi | theta | psi
  | vx | vy | vz
  | p | q | r
  | P0 | P1 | P2 | P3
deriving DecidableEq

namespace Var

/-- All 20 variables, in the canonical state-vector order. -/
def all : List Var :=
  [x, y, z, qx, qy, qz, qw, phi, theta, psi, vx, vy, vz, p, q, r, P0, P1, P2, P3]

end Var

/-- Projection of a state onto one named scalar variable. -/
def State.get (s : State) : Var → Flt
  | .x => s.pos.x
  | .y => s.pos.y
  | .z => s.pos.z
  | .qx => s.quat.qx
  | .qy => s.quat.qy
  | .qz => s.quat.qz
  | .qw => s.quat.qw
  | .phi => s.rpy.x
  | .theta => s.rpy.y
  | .psi => s.rpy.z
  | .vx => s.vel.x
  | .vy => s.vel.y
  | .vz => s.vel.z
  | .p => s.ang.x
  | .q => s.ang.y
  | .r => s.ang.z
  | .P0 => s.prop.P0
  | .P1 => s.prop.P1
  | .P2 => s.prop.P2
  | .P3 => s.prop.P3

/-- Composite trapezoidal rule (`np.trapz`) over sample values `ys` at
sample points `ts`. -/
def trapz : List Flt → List ℚ → Flt
  | y0 :: y1 :: ys, t0 :: t1 :: ts =>
      Flt.add (Flt.mul (Flt.val ((t1 - t0) / 2)) (Flt.add y0 y1))
        (trapz (y1 :: ys) (t1 :: ts))
  | _, _ => Flt.val 0

/-- Modelled from the spec: the timestamps `States.to_df` attaches to a
sequence of `n` observations recorded at regular intervals `dt`
(jdrones.data_models is not under src/). -/
def tickTimes (n : ℕ) (dt : ℚ) : List ℚ :=
  (List.range n).map fun i => (i : ℚ) * dt

/-- The trapezoidal integral of `|v(t)|` over the episode for one named
variable: the `groupby(variable).apply(trapz(r.value.abs(), x=r.t))` of
`get_reward`, on the time-sorted long-form table. -/
def varIntegral (dt : ℚ) (states : List State) (v : Var) : Flt :=
  trapz ((states.map fun s => Flt.fabs (s.get v))) (tickTimes states.length dt)

/-- The weighting pipeline of `get_reward`: actuator magnitudes and
quaternion components are assigned 0, position components are scaled by
1000, Euler angles by 10, everything else kept. -/
def adjust (raw : Var → Flt) : Var → Flt
  | .P0 | .P1 | .P2 | .P3 => Flt.val 0
  | .qw | .qx | .qy | .qz => Flt.val 0
  | .x => Flt.mul (Flt.val 1000) (raw .x)
  | .y => Flt.mul (Flt.val 1000) (raw .y)
  | .z => Flt.mul (Flt.val 1000) (raw .z)
  | .phi => Flt.mul (Flt.val 10) (raw .phi)
  | .theta => Flt.mul (Flt.val 10) (raw .theta)
  | .psi => Flt.mul (Flt.val 10) (raw .psi)
  | v => raw v

/-- `BasePositionDroneEnv.get_reward`: per-variable trapezoidal integrals
of absolute values over time, weighted, then summed. -/
def get_reward (dt : ℚ) (states : List State) : Flt :=
  Flt.sum (Var.all.map (adjust (varIntegral dt states)))

/-- The weight vector as the spec states it: position 1000, Euler angles
10, quaternion and actuator components 0, velocities 1. -/
def specWeight : Var → ℚ
  | .x | .y | .z => 1000
  | .phi | .theta | .psi => 10
  | .qw | .qx | .qy | .qz => 0
  | .P0 | .P1 | .P2 | .P3 => 0
  | _ => 1

/-- The reward as the spec phrases it: the sum over all state variables of
the per-variable weight applied to the trapezoidal integral of the
absolute value, with weight-0 variables zeroed out. -/
def get_reward_spec (dt : ℚ) (states : List State) : Flt :=
  Flt.sum (Var.all.map fun v =>
    if specWeight v = 0 then Flt.val 0
    else Flt.mul (Flt.val (specWeight v)) (varIntegral dt states v))

/-- A quintic polynomial along one axis, stored by its six coefficients. -/
structure Quintic where
  a0 : Flt
  a1 : Flt
  a2 : Flt
  a3 : Flt
  a4 : Flt
  a5 : Flt
deriving DecidableEq

namespace Quintic

/-- Polynomial evaluation (position along the axis) at time `t`. -/
def posAt (c : Quintic) (t : Flt) : Flt :=
  c.a0 + t * (c.a1 + t * (c.a2 + t * (c.a3 + t * (c.a4 + t * c.a5))))

/-- First-derivative evaluation (velocity along the axis) at time `t`. -/
def velAt (c : Quintic) (t : Flt) : Flt :=
  c.a1 + t * (Flt.val 2 * c.a2 + t * (Flt.val 3 * c.a3 +
    t * (Flt.val 4 * c.a4 + t * (Flt.val 5 * c.a5))))

end Quintic

/-- Modelled from the spec: `QuinticPolynomialTrajectory`
(jdrones.trajectory) is not under src/.  Per the spec, each axis carries a
degree-5 polynomial satisfying the six boundary conditions (position,
velocity, acceleration at both ends), and zero duration is handled
deterministically without a fault (treated as already-arrived). -/
def mkQuintic (p0 v0 ac0 pT vT acT T : Flt) : Quintic :=
  if T = Flt.val 0 then
    ⟨pT, Flt.val 0, Flt.val 0, Flt.val 0, Flt.val 0, Flt.val 0⟩
  else
    let T2 := T * T
    let T3 := T2 * T
    let T4 := T3 * T
    let T5 := T4 * T
    { a0 := p0
      a1 := v0
      a2 := ac0 / Flt.val 2
      a3 := (Flt.val 20 * (pT - p0) - (Flt.val 8 * vT + Flt.val 12 * v0) * T
              - (Flt.val 3 * ac0 - acT) * T2) / (Flt.val 2 * T3)
      a4 := (Flt.val 30 * (p0 - pT) + (Flt.val 14 * vT + Flt.val 16 * v0) * T
              + (Flt.val 3 * ac0 - Flt.val 2 * acT) * T2) / (Flt.val 2 * T4)
      a5 := (Flt.val 12 * (pT - p0) - Flt.val 6 * (vT + v0) * T
              - (ac0 - acT) * T2) / (Flt.val 2 * T5) }

/-- The trajectory: a duration and one quintic per spatial axis. -/
structure Traj where
  T : Flt
  cx : Quintic
  cy : Quintic
  cz : Quintic
deriving DecidableEq

namespace Traj

/-- Evaluated 3-D position at time `t`. -/
def position (tr : Traj) (t : Flt) : Vec3 :=
  ⟨tr.cx.posAt t, tr.cy.posAt t, tr.cz.posAt t⟩

/-- Evaluated 3-D velocity at time `t`. -/
def velocity (tr : Traj) (t : Flt) : Vec3 :=
  ⟨tr.cx.velAt t, tr.cy.velAt t, tr.cz.velAt t⟩

end Traj

/-- Modelled from the spec: the `QuinticPolynomialTrajectory` constructor,
building one quintic per axis from the boundary conditions. -/
def mkTraj (sPos sVel sAcc dPos dVel dAcc : Vec3) (T : Flt) : Traj :=
  ⟨T,
   mkQuintic sPos.x sVel.x sAcc.x dPos.x dVel.x dAcc.x T,
   mkQuintic sPos.y sVel.y sAcc.y dPos.y dVel.y dAcc.y T,
   mkQuintic sPos.z sVel.z sAcc.z dPos.z dVel.z dAcc.z T⟩

/-- `PolyPositionDroneEnv.calc_traj`: the duration is the straight-line
distance between the two positions divided by `max_vel` (default 1), and
the trajectory is built from the current and target positions and
velocities with zero boundary accelerations. -/
def calc_traj (cur tgt : State) (max_vel : ℚ := 1) : Traj :=
  let dist := Flt.norm (Vec3.sub tgt.pos cur.pos).toList
  let T := dist / Flt.val max_vel
  mkTraj cur.pos cur.vel Vec3.zero tgt.pos tgt.vel Vec3.zero T

/-- The result of one inner-model `env.step` call: the successor internal
state, the observation, the (ignored) reward, the two termination flags
and the info dictionary. -/
structure StepOut (S B : Type) where
  env : S
  obs : State
  rew : Flt
  term : Bool
  trunc : Bool
  info : B

/-- The interface of the inner dynamics model (`LQRDroneEnv`), external to
the source file: `reset`, `step`, the authoritative `state` accessor, and
the LQR controller error accessor `controllers["lqr"].e` exposing `.pos`
and `.rpy`.  `S` is its internal state type, `B` its info-dict type, `O`
the type of reset options. -/
structure InnerEnv (S B O : Type) where
  reset : Option ℤ → O → S × State × B
  step : S → List Flt → StepOut S B
  state : S → State
  lqrE : S → Vec3 × Vec3

/-- `BasePositionDroneEnv.reset`: resets the inner model, discards its
info, and returns a States sequence holding exactly one copy of the inner
observation together with an empty info dict.  The outer info dict is
represented as a pair (inner info if any, optional error value); the empty
dict is `(none, none)`. -/
def baseReset (E : InnerEnv S B O) (seed : Option ℤ) (opts : O) :
    S × List State × (Option B × Option Flt) :=
  let r := E.reset seed opts
  (r.1, [r.2.1], (none, none))

/-- The tracked error of `PolyPositionDroneEnv.step`:
`np.linalg.norm(self.env.state.pos - action_as_state.pos)`. -/
def polyDist (E : InnerEnv S B O) (action : Vec3) (s : S) : Flt :=
  Flt.norm (Vec3.sub (E.state s).pos action).toList

/-- The tracked error of `LQRPositionDroneEnv.step`:
`np.linalg.norm(np.concatenate([e.pos, e.rpy]))` for
`e = self.env.controllers["lqr"].e`. -/
def lqrDist (E : InnerEnv S B O) (s : S) : Flt :=
  Flt.norm ((E.lqrE s).1.toList ++ (E.lqrE s).2.toList)

/-- The two termination checks shared verbatim by both step variants:
`if np.any(np.isnan(dist)): trunc = True` and
`if dist < 0.01: term = True; info["error"] = dist`.  Returns the updated
`(term, trunc, error-entry)`. -/
def loopChecks (dist : Flt) (term trunc : Bool) : Bool × Bool × Option Flt :=
  let trunc2 := if dist.isNaN then true else trunc
  if Flt.lt dist (Flt.val (1 / 100)) then (true, trunc2, some dist)
  else (term, trunc2, none)

/-- The generic `while not (term or trunc)` driver, with fuel making the
possible divergence of the source loop explicit: `none` means the loop had
not exited within `fuel` iterations. -/
def runLoop (tick : σ → σ) (done : σ → Bool) : ℕ → σ → Option σ
  | 0, st => if done st then some st else none
  | fuel + 1, st => if done st then some st else runLoop tick done fuel (tick st)

/-- The mutable loop state of `PolyPositionDroneEnv.step`: the inner env,
the reference state `u`, the observation deque, the flags, the last inner
info, the optional `info["error"]` entry, the tick counter `k` (the
`itertools.count(-1)` iterator: the next `next()` returns `k`), and an
instrumentation counter of executed loop bodies. -/
structure PolySt (S B : Type) where
  env : S
  u : State
  obss : List State
  term : Bool
  trunc : Bool
  info : Option B
  err : Option Flt
  k : ℤ
  ticks : ℕ
deriving DecidableEq

/-- The spec's description of the per-tick reference: the fixed target with
zero velocity once `t` exceeds the trajectory duration, otherwise the
trajectory's evaluated position and velocity at `t`; other fields keep the
commanded state's values. -/
def specRef (traj : Traj) (action : Vec3) (u : State) (t : Flt) : State :=
  if Flt.lt traj.T t then { u with pos := action, vel := Vec3.zero }
  else { u with pos := traj.position t, vel := traj.velocity t }

/-- One body execution of the `while` loop of `PolyPositionDroneEnv.step`:
draw `t = next(counter) * dt`, select the reference (hold target past the
trajectory duration, else evaluate the trajectory), step the inner model
with `u.to_x()`, append the observation, and run the NaN / threshold
checks on `np.linalg.norm(self.env.state.pos - action_as_state.pos)`. -/
def polyTick (E : InnerEnv S B O) (dt : ℚ) (action : Vec3) (traj : Traj)
    (st : PolySt S B) : PolySt S B :=
  let t : Flt := Flt.val ((st.k : ℚ) * dt)
  let u2 : State :=
    if Flt.lt traj.T t then { st.u with pos := action, vel := Vec3.zero }
    else { st.u with pos := traj.position t, vel := traj.velocity t }
  let o := E.step st.env u2.to_x
  let dist := polyDist E action o.env
  let c := loopChecks dist o.term o.trunc
  { env := o.env, u := u2, obss := st.obss ++ [o.obs], term := c.1,
    trunc := c.2.1, info := some o.info, err := c.2.2, k := st.k + 1,
    ticks := st.ticks + 1 }

/-- The loop exit condition `term or trunc`. -/
def polyDone (st : PolySt S B) : Bool := st.term || st.trunc

/-- The loop state just before the first iteration: flags false, empty
deque, empty info, counter at `-1`, reference initialised to a copy of the
commanded state. -/
def polyInit (s : S) (actionState : State) : PolySt S B :=
  { env := s, u := actionState, obss := [], term := false, trunc := false,
    info := none, err := none, k := -1, ticks := 0 }

/-- The `while not (term or trunc)` loop of `PolyPositionDroneEnv.step`,
with explicit fuel. -/
def polyLoop (E : InnerEnv S B O) (dt : ℚ) (action : Vec3) (traj : Traj)
    (fuel : ℕ) (st : PolySt S B) : Option (PolySt S B) :=
  runLoop (polyTick E dt action traj) polyDone fuel st

/-- The return tuple of either step variant: the States sequence, the
reward, the flags, the info dict (inner info, optional error entry), and —
made explicit here — the final inner-model state held by `self.env`. -/
structure StepRes (S B : Type) where
  states : List State
  reward : Flt
  term : Bool
  trunc : Bool
  info : Option B × Option Flt
  env : S
deriving DecidableEq

/-- `PolyPositionDroneEnv.step`: build the commanded state from the action,
compute the trajectory from the inner model's current state, run the loop,
and wrap the collected observations with their reward. -/
def polyStep (E : InnerEnv S B O) (dt : ℚ) (s : S) (action : Vec3)
    (fuel : ℕ) : Option (StepRes S B) :=
  let actionState := { State.default with pos := action }
  let traj := calc_traj (E.state s) actionState
  (polyLoop E dt action traj fuel (polyInit s actionState)).map fun st =>
    ⟨st.obss, get_reward dt st.obss, st.term, st.trunc, (st.info, st.err), st.env⟩

/-- The mutable loop state of `LQRPositionDroneEnv.step`: as for the
trajectory variant but with a fixed control input and no tick counter. -/
structure LqrSt (S B : Type) where
  env : S
  obss : List State
  term : Bool
  trunc : Bool
  info : Option B
  err : Option Flt
  ticks : ℕ
deriving DecidableEq

/-- One body execution of the `while` loop of `LQRPositionDroneEnv.step`:
step the inner model with the fixed input `u`, append a copy of the
observation, and run the NaN / threshold checks on the controller error
norm `np.linalg.norm(np.concatenate([e.pos, e.rpy]))`. -/
def lqrTick (E : InnerEnv S B O) (u : List Flt) (st : LqrSt S B) :
    LqrSt S B :=
  let o := E.step st.env u
  let dist := lqrDist E o.env
  let c := loopChecks dist o.term o.trunc
  { env := o.env, obss := st.obss ++ [o.obs], term := c.1, trunc := c.2.1,
    info := some o.info, err := c.2.2, ticks := st.ticks + 1 }

/-- The loop exit condition `term or trunc`. -/
def lqrDone (st : LqrSt S B) : Bool := st.term || st.trunc

/-- The loop state just before the first iteration. -/
def lqrInit (s : S) : LqrSt S B :=
  { env := s, obss := [], term := false, trunc := false, info := none,
    err := none, ticks := 0 }

/-- The `while not (term or trunc)` loop of `LQRPositionDroneEnv.step`,
with explicit fuel. -/
def lqrLoop (E : InnerEnv S B O) (u : List Flt) (fuel : ℕ)
    (st : LqrSt S B) : Option (LqrSt S B) :=
  runLoop (lqrTick E u) lqrDone fuel st

/-- `LQRPositionDroneEnv.step`: flatten the commanded state once, run the
loop with that fixed input, and wrap the collected observations with their
reward. -/
def lqrStep (E : InnerEnv S B O) (dt : ℚ) (s : S) (action : Vec3)
    (fuel : ℕ) : Option (StepRes S B) :=
  let xAction := { State.default with pos := action }
  let u := xAction.to_x
  (lqrLoop E u fuel (lqrInit s)).map fun st =>
    ⟨st.obss, get_reward dt st.obss, st.term, st.trunc, (st.info, st.err), st.env⟩

/-- A trivial inner model: `step` returns the unchanged internal state with
both flags false; its authoritative state and controller error are read
back from the internal state. -/
def zeroEnv : InnerEnv State Unit Unit :=
  { reset := fun _ _ => (State.default, State.default, ())
    step := fun s _ => ⟨s, s, Flt.val 0, false, false, ()⟩
    state := fun s => s
    lqrE := fun s => (s.pos, s.rpy) }

/-- A position far from the origin target. -/
def farPos : Vec3 := ⟨Flt.val 5, Flt.val 5, Flt.val 5⟩

/-- A state far from the origin target. -/
def farState : State := { State.default with pos := farPos }

/-- An inner model that reports `terminated = True` on its very first step
while its state stays far from the target. -/
def termEnv : InnerEnv State Unit Unit :=
  { reset := fun _ _ => (farState, farState, ())
    step := fun s _ => ⟨s, s, Flt.val 0, true, false, ()⟩
    state := fun s => s
    lqrE := fun s => (s.pos, s.rpy) }

/-- A position whose x component is NaN. -/
def nanPos : Vec3 := ⟨Flt.nan, Flt.val 0, Flt.val 0⟩

/-- A state whose position contains a NaN. -/
def nanState : State := { State.default with pos := nanPos }

/-- An inner model that diverges immediately: its first step drives the
state (and controller error) to NaN without raising either flag itself. -/
def nanEnv : InnerEnv State Unit Unit :=
  { reset := fun _ _ => (State.default, State.default, ())
    step := fun _ _ => ⟨nanState, nanState, Flt.val 0, false, false, ()⟩
    state := fun s => s
    lqrE := fun s => (s.pos, s.rpy) }

/-- A concrete target 5 units from the origin along x. -/
def c3action : Vec3 := ⟨Flt.val 5, Flt.val 0, Flt.val 0⟩

/-- The commanded state for that target. -/
def c3cmd : State := { State.default with pos := c3action }

/-- The trajectory `PolyPositionDroneEnv.step` builds for that episode
(duration 5 at the default max velocity 1). -/
def c3traj : Traj := calc_traj State.default c3cmd

/-- A default step result for reading off completed runs. -/
def resDummy : StepRes State Unit :=
  ⟨[], Flt.val 0, false, false, (none, none), State.default⟩

/-- The completed converging poly-variant episode on the trivial model. -/
def c1PolyRes : StepRes State Unit :=
  (polyStep zeroEnv (1 / 240) State.default Vec3.zero 1).getD resDummy

/-- The completed converging lqr-variant episode on the trivial model. -/
def c1LqrRes : StepRes State Unit :=
  (lqrStep zeroEnv (1 / 240) State.default Vec3.zero 1).getD resDummy

/-- The completed poly-variant episode on the diverging model. -/
def c4PolyRes : StepRes State Unit :=
  (polyStep nanEnv (1 / 240) State.default Vec3.zero 1).getD resDummy

/-- The completed lqr-variant episode on the diverging model. -/
def c4LqrRes : StepRes State Unit :=
  (lqrStep nanEnv (1 / 240) State.default Vec3.zero 1).getD resDummy

/-- A poly-variant loop state that is already truncated. -/
def c4TruncSt : PolySt State Unit :=
  { env := State.default, u := State.default, obss := [], term := false,
    trunc := true, info := none, err := none, k := 0, ticks := 0 }

/-- An lqr-variant loop state that is already truncated. -/
def c4TruncStL : LqrSt State Unit :=
  { env := State.default, obss := [], term := false, trunc := true,
    info := none, err := none, ticks := 0 }

/-- The completed poly-variant loop run on the trivial model. -/
def c9PolySt : PolySt State Unit :=
  (polyLoop zeroEnv (1 / 240) Vec3.zero (calc_traj State.default State.default) 1
    (polyInit State.default State.default)).getD
    (polyInit State.default State.default)

/-- The completed lqr-variant loop run on the trivial model. -/
def c9LqrSt : LqrSt State Unit :=
  (lqrLoop zeroEnv State.default.to_x 1 (lqrInit State.default)).getD
    (lqrInit State.default)

/-- The completed poly-variant episode on the trivial model, step level. -/
def c9PolyRes : StepRes State Unit :=
  (polyStep zeroEnv (1 / 240) State.default Vec3.zero 1).getD resDummy

/-- The completed lqr-variant episode on the trivial model, step level. -/
def c9LqrRes : StepRes State Unit :=
  (lqrStep zeroEnv (1 / 240) State.default Vec3.zero 1).getD resDummy

/-- Two states identical except in the quaternion and actuator fields. -/
def c7a : State := State.default

/-- The counterpart with distinct quaternion and actuator fields. -/
def c7b : State :=
  { State.default with quat := ⟨Flt.val 9, Flt.val 8, Flt.val 7, Flt.val 6⟩,
                       prop := ⟨Flt.val 1, Flt.val 2, Flt.val 3, Flt.val 4⟩ }

/-- Agreement on every state field except the orientation quaternion and
the four actuator magnitudes. -/
def AgreeExceptQuatProp (s1 s2 : State) : Prop :=
  s1.pos = s2.pos ∧ s1.rpy = s2.rpy ∧ s1.vel = s2.vel ∧ s1.ang = s2.ang

theorem Flt.one_mul (a : Flt) : Flt.mul (Flt.val 1) a = a := by
  cases a <;> simp [Flt.mul]

/-- C2: For every States sequence, `get_reward` is the sum over all state
variables of the trapezoidal-rule integral over time of the absolute value
of that variable, weighted per variable as the documented weight vector:
x, y, z scaled by 1000; phi, theta, psi scaled by 10; quaternion and
actuator components zeroed; velocity components weighted 1. -/
theorem claim2_reward_is_weighted_integral (dt : ℚ) (states : List State) :
    get_reward dt states = get_reward_spec dt states := by
  simp [get_reward, get_reward_spec, Var.all, adjust, specWeight, Flt.one_mul]

theorem runLoop_shape (tick : σ → σ) (done : σ → Bool) :
    ∀ fuel st res, runLoop tick done fuel st = some res →
      (done st = true ∧ res = st) ∨ ∃ st2, res = tick st2 := by
  intro fuel
  induction fuel with
  | zero =>
      intro st res h
      by_cases hc : done st = true
      · simp [runLoop, hc] at h
        exact Or.inl ⟨hc, h.symm⟩
      · simp [runLoop, hc] at h
  | succ n ih =>
      intro st res h
      by_cases hc : done st = true
      · simp [runLoop, hc] at h
        exact Or.inl ⟨hc, h.symm⟩
      · simp [runLoop, hc] at h
        rcases ih (tick st) res h with ⟨_, hr⟩ | ⟨st2, hr⟩
        · exact Or.inr ⟨st, hr⟩
        · exact Or.inr ⟨st2, hr⟩

theorem runLoop_done (tick : σ → σ) (done : σ → Bool) (fuel : ℕ) (st : σ)
    (h : done st = true) : runLoop tick done fuel st = some st := by
  cases fuel <;> simp [runLoop, h]

theorem runLoop_inv (tick : σ → σ) (done : σ → Bool) (P : σ → Prop)
    (hP : ∀ s, P s → P (tick s)) :
    ∀ fuel st res, runLoop tick done fuel st = some res → P st → P res := by
  intro fuel
  induction fuel with
  | zero =>
      intro st res h hp
      by_cases hc : done st = true
      · simp [runLoop, hc] at h; exact h ▸ hp
      · simp [runLoop, hc] at h
  | succ n ih =>
      intro st res h hp
      by_cases hc : done st = true
      · simp [runLoop, hc] at h; exact h ▸ hp
      · simp [runLoop, hc] at h
        exact ih (tick st) res h (hP st hp)

theorem loopChecks_err (d : Flt) (te tr : Bool) :
    (loopChecks d te tr).2.2 =
      if Flt.lt d (Flt.val (1 / 100)) = true then some d else none := by
  simp only [loopChecks]
  by_cases h : Flt.lt d (Flt.val (1 / 100)) = true
  · rw [if_pos h, if_pos h]
  · rw [if_neg h, if_neg h]

theorem loopChecks_term (d : Flt) (te tr : Bool)
    (h : Flt.lt d (Flt.val (1 / 100)) = true) :
    (loopChecks d te tr).1 = true := by
  simp only [loopChecks]
  rw [if_pos h]

theorem loopChecks_nan (d : Flt) (te tr : Bool) (h : d.isNaN = true) :
    (loopChecks d te tr).2.1 = true := by
  simp only [loopChecks]
  by_cases hlt : Flt.lt d (Flt.val (1 / 100)) = true
  · rw [if_pos hlt]
    simp [h]
  · rw [if_neg hlt]
    simp [h]

/-- After any executed body of the trajectory-following loop: the error
entry is present iff the tracked error of the post-step inner state is
below the threshold (and then holds exactly that error), the threshold
firing forces `term`, and a NaN tracked error forces `trunc`. -/
theorem polyTick_post (E : InnerEnv S B O) (dt : ℚ) (action : Vec3)
    (traj : Traj) (st : PolySt S B) :
    ((polyTick E dt action traj st).err =
        if Flt.lt (polyDist E action (polyTick E dt action traj st).env)
            (Flt.val (1 / 100)) = true
        then some (polyDist E action (polyTick E dt action traj st).env)
        else none)
      ∧ (Flt.lt (polyDist E action (polyTick E dt action traj st).env)
            (Flt.val (1 / 100)) = true →
          (polyTick E dt action traj st).term = true)
      ∧ (Flt.isNaN (polyDist E action (polyTick E dt action traj st).env)
            = true →
          (polyTick E dt action traj st).trunc = true) := by
  refine ⟨?_, ?_, ?_⟩
  · simpa [polyTick] using
      loopChecks_err (polyDist E action
        (E.step st.env (specRef traj action st.u
          (Flt.val ((st.k : ℚ) * dt))).to_x).env) _ _
  · intro h
    simp only [polyTick] at h ⊢
    exact loopChecks_term _ _ _ h
  · intro h
    simp only [polyTick] at h ⊢
    exact loopChecks_nan _ _ _ h

/-- After any executed body of the direct-setpoint loop: the same three
facts for the controller-error norm. -/
theorem lqrTick_post (E : InnerEnv S B O) (u : List Flt) (st : LqrSt S B) :
    ((lqrTick E u st).err =
        if Flt.lt (lqrDist E (lqrTick E u st).env) (Flt.val (1 / 100)) = true
        then some (lqrDist E (lqrTick E u st).env) else none)
      ∧ (Flt.lt (lqrDist E (lqrTick E u st).env) (Flt.val (1 / 100)) = true →
          (lqrTick E u st).term = true)
      ∧ (Flt.isNaN (lqrDist E (lqrTick E u st).env) = true →
          (lqrTick E u st).trunc = true) := by
  refine ⟨?_, ?_, ?_⟩
  · simpa [lqrTick] using loopChecks_err (lqrDist E (E.step st.env u).env) _ _
  · intro h
    simp only [lqrTick] at h ⊢
    exact loopChecks_term _ _ _ h
  · intro h
    simp only [lqrTick] at h ⊢
    exact loopChecks_nan _ _ _ h

/-- C5: In every tick of the trajectory-following variant, the reference
state fed to the inner model is the fixed target position with zero
velocity whenever the tick time `t` exceeds the trajectory duration `T`,
and otherwise the trajectory's evaluated position and velocity at `t`. -/
theorem claim5_reference_selection {S B O : Type} (E : InnerEnv S B O)
    (dt : ℚ) (action : Vec3) (traj : Traj) (st : PolySt S B) :
    (polyTick E dt action traj st).u =
        specRef traj action st.u (Flt.val ((st.k : ℚ) * dt))
      ∧ (polyTick E dt action traj st).obss =
        st.obss ++ [(E.step st.env
          (specRef traj action st.u (Flt.val ((st.k : ℚ) * dt))).to_x).obs] := by
  constructor
  · rfl
  · rfl

/-- C8: `reset` returns a States sequence holding exactly one copy of the
inner model's initial observation, together with an empty info dict. -/
theorem claim8_reset_singleton_and_empty_info {S B O : Type}
    (E : InnerEnv S B O) (seed : Option ℤ) (opts : O) :
    (baseReset E seed opts).2.1 = [(E.reset seed opts).2.1]
      ∧ (baseReset E seed opts).2.2 = (none, none) :=
  ⟨rfl, rfl⟩

attribute [local semireducible] Rat.add Rat.mul Rat.inv Rat.sub in
/-- C6: `calc_traj` sets the duration to the straight-line distance between
the two positions divided by `max_vel` (default 1, the one-argument form),
and when the start and end positions coincide (at non-NaN coordinates) it
reports `T = 0` while still returning a trajectory. -/
theorem claim6_duration_distance_over_maxvel (cur tgt : State) (mv : ℚ) :
    ((calc_traj cur tgt mv).T =
        Flt.div (Flt.norm (Vec3.sub tgt.pos cur.pos).toList) (Flt.val mv))
      ∧ ((calc_traj cur tgt).T =
        Flt.div (Flt.norm (Vec3.sub tgt.pos cur.pos).toList) (Flt.val 1))
      ∧ (cur.pos = tgt.pos → cur.pos.x.isNaN = false →
          cur.pos.y.isNaN = false → cur.pos.z.isNaN = false →
          (calc_traj cur tgt).T = Flt.val 0) := by
  refine ⟨rfl, rfl, ?_⟩
  intro hpos hx hy hz
  rcases hpx : cur.pos.x with _ | a
  · rw [hpx] at hx; simp [Flt.isNaN] at hx
  rcases hpy : cur.pos.y with _ | b
  · rw [hpy] at hy; simp [Flt.isNaN] at hy
  rcases hpz : cur.pos.z with _ | c
  · rw [hpz] at hz; simp [Flt.isNaN] at hz
  have hflt : ∀ r : ℚ, (Flt.val r - Flt.val r : Flt) = Flt.val 0 := by
    intro r
    show Flt.sub (Flt.val r) (Flt.val r) = Flt.val 0
    simp [Flt.sub]
  have hsub : Vec3.sub tgt.pos cur.pos = Vec3.zero := by
    rw [← hpos]
    simp [Vec3.sub, Vec3.zero, hpx, hpy, hpz, hflt]
  show Flt.div (Flt.norm (Vec3.sub tgt.pos cur.pos).toList) (Flt.val 1) = Flt.val 0
  rw [hsub]
  decide

attribute [local semireducible] Rat.add Rat.mul Rat.inv Rat.sub in
/-- C3 (counterexample to the claim as stated): on a concrete episode with
`dt = 1` and a target 5 units away, the first executed tick evaluates the
trajectory at `t = -dt = -1` — `itertools.count(-1)` yields `-1` on its
first `next()` — and that reference differs from the trajectory evaluated
at `t = 0`, so the first evaluated time is not 0. -/
theorem claim3_counterexample_first_eval_not_at_zero :
    (polyInit State.default c3cmd : PolySt State Unit).k = -1
      ∧ (polyTick zeroEnv 1 c3action c3traj
          (polyInit State.default c3cmd)).u.pos
        = Traj.position c3traj (Flt.val (-1))
      ∧ Traj.position c3traj (Flt.val (-1)) ≠ Traj.position c3traj (Flt.val 0) := by
  refine ⟨rfl, by decide, by decide⟩

/-- C3 (amended): the tick times are `t = k * dt` with the counter starting
at `-1` and incrementing once per tick, so the first time at which the
trajectory (or hold branch) is evaluated is `t = -dt`, not 0: for a
non-negative trajectory duration and positive `dt` the first tick takes
the trajectory-evaluation branch at `-dt`. -/
theorem claim3_first_tick_evaluates_at_minus_dt {S B O : Type}
    (E : InnerEnv S B O) (dt : ℚ) (action : Vec3) (traj : Traj) (s : S)
    (aSt : State) (st : PolySt S B) (q : ℚ) :
    ((polyInit s aSt : PolySt S B).k = -1)
      ∧ ((polyTick E dt action traj st).k = st.k + 1)
      ∧ (st.k = -1 → 0 < dt → traj.T = Flt.val q → 0 ≤ q →
          (polyTick E dt action traj st).u =
            { st.u with pos := Traj.position traj (Flt.val (-dt)),
                        vel := Traj.velocity traj (Flt.val (-dt)) }) := by
  refine ⟨rfl, rfl, ?_⟩
  intro hk hdt hT hq
  have ht : ((st.k : ℚ)) * dt = -dt := by rw [hk]; push_cast; ring
  have hc : Flt.lt traj.T (Flt.val (-dt)) = false := by
    rw [hT]
    simp only [Flt.lt, decide_eq_false_iff_not, not_lt]
    linarith
  simp only [polyTick, ht, hc, Bool.false_eq_true, if_false]

attribute [local semireducible] Rat.add Rat.mul Rat.inv Rat.sub in
/-- C3 witness: the amended statement evaluated on the concrete episode of
the counterexample — the first tick's reference is the trajectory
evaluated at `-dt = -1`. -/
theorem claim3_witness :
    (polyTick zeroEnv 1 c3action c3traj (polyInit State.default c3cmd)).u =
      { (polyInit State.default c3cmd : PolySt State Unit).u with
          pos := Traj.position c3traj (Flt.val (-1)),
          vel := Traj.velocity c3traj (Flt.val (-1)) } := by
  have h := claim3_first_tick_evaluates_at_minus_dt zeroEnv 1 c3action c3traj
      State.default c3cmd (polyInit State.default c3cmd) 5
  simpa using h.2.2 rfl (by norm_num) (by decide) (by norm_num)

attribute [local semireducible] Rat.add Rat.mul Rat.inv Rat.sub in
/-- C10: either step variant can exit with `terminated = True` yet no
"error" entry in the info dict: when the inner model itself reports
termination while the tracked error stays at or above the threshold, the
loop exits without setting `info["error"]`. -/
theorem claim10_inner_termination_without_error :
    ((polyStep termEnv (1 / 240) farState Vec3.zero 1).map fun r =>
        (r.term, r.info.2)) = some (true, none)
      ∧ ((lqrStep termEnv (1 / 240) farState Vec3.zero 1).map fun r =>
        (r.term, r.info.2)) = some (true, none) := by
  exact ⟨by decide, by decide⟩

/-- C1: whenever either step variant's loop completes, the "error" entry of
the returned info dict is present exactly when the variant's tracked error
at the final inner state is below 0.01 — and then holds exactly that error
and forces `terminated = True`.  The trajectory variant tracks the norm of
the position error only; the direct-setpoint variant tracks the norm of
the controller's position error concatenated with its rpy error. -/
theorem claim1_term_error_iff_threshold {S B O : Type} (E : InnerEnv S B O)
    (dt : ℚ) (s : S) (action : Vec3) (fuel : ℕ) (r r2 : StepRes S B) :
    (polyStep E dt s action fuel = some r →
      (r.info.2 = if Flt.lt (polyDist E action r.env) (Flt.val (1 / 100)) = true
          then some (polyDist E action r.env) else none)
        ∧ (Flt.lt (polyDist E action r.env) (Flt.val (1 / 100)) = true →
            r.term = true))
      ∧ (lqrStep E dt s action fuel = some r2 →
      (r2.info.2 = if Flt.lt (lqrDist E r2.env) (Flt.val (1 / 100)) = true
          then some (lqrDist E r2.env) else none)
        ∧ (Flt.lt (lqrDist E r2.env) (Flt.val (1 / 100)) = true →
            r2.term = true)) := by
  constructor
  · intro h
    simp only [polyStep, polyLoop] at h
    rcases Option.map_eq_some'.mp h with ⟨st, hloop, hst⟩
    rcases runLoop_shape _ _ _ _ _ hloop with ⟨hdone, _⟩ | ⟨st2, rfl⟩
    · simp [polyDone, polyInit] at hdone
    · subst hst
      exact ⟨(polyTick_post E dt action _ st2).1,
             (polyTick_post E dt action _ st2).2.1⟩
  · intro h
    simp only [lqrStep, lqrLoop] at h
    rcases Option.map_eq_some'.mp h with ⟨st, hloop, hst⟩
    rcases runLoop_shape _ _ _ _ _ hloop with ⟨hdone, _⟩ | ⟨st2, rfl⟩
    · simp [lqrDone, lqrInit] at hdone
    · subst hst
      exact ⟨(lqrTick_post E _ st2).1, (lqrTick_post E _ st2).2.1⟩

attribute [local semireducible] Rat.add Rat.mul Rat.inv Rat.sub in
/-- C1 witness: a converging episode of each variant on the trivial inner
model — both exit with `terminated = True` and the "error" entry equal to
the tracked error. -/
theorem claim1_witness :
    c1PolyRes.term = true
      ∧ c1PolyRes.info.2 = some (polyDist zeroEnv Vec3.zero c1PolyRes.env)
      ∧ c1LqrRes.term = true
      ∧ c1LqrRes.info.2 = some (lqrDist zeroEnv c1LqrRes.env) := by
  have h := claim1_term_error_iff_threshold zeroEnv (1 / 240) State.default
      Vec3.zero 1 c1PolyRes c1LqrRes
  have hp := h.1 (by decide)
  have hl := h.2 (by decide)
  refine ⟨hp.2 (by decide), ?_, hl.2 (by decide), ?_⟩
  · rw [hp.1, if_pos (by decide)]
  · rw [hl.1, if_pos (by decide)]

/-- C4: in either variant, if the tracked error at the final inner state is
NaN then the episode ended with `truncated = True`; and once `trunc` is
set, the loop performs no further ticks — it returns its state unchanged
for any remaining fuel. -/
theorem claim4_nan_truncates {S B O : Type} (E : InnerEnv S B O) (dt : ℚ)
    (s : S) (action : Vec3) (fuel fuel2 : ℕ) (r r2 : StepRes S B)
    (traj : Traj) (stp : PolySt S B) (stl : LqrSt S B) (u : List Flt) :
    (polyStep E dt s action fuel = some r →
        Flt.isNaN (polyDist E action r.env) = true → r.trunc = true)
      ∧ (lqrStep E dt s action fuel = some r2 →
        Flt.isNaN (lqrDist E r2.env) = true → r2.trunc = true)
      ∧ (stp.trunc = true → polyLoop E dt action traj fuel2 stp = some stp)
      ∧ (stl.trunc = true → lqrLoop E u fuel2 stl = some stl) := by
  refine ⟨?_, ?_, ?_, ?_⟩
  · intro h hnan
    simp only [polyStep, polyLoop] at h
    rcases Option.map_eq_some'.mp h with ⟨st, hloop, hst⟩
    rcases runLoop_shape _ _ _ _ _ hloop with ⟨hdone, _⟩ | ⟨st2, rfl⟩
    · simp [polyDone, polyInit] at hdone
    · subst hst
      exact (polyTick_post E dt action _ st2).2.2 hnan
  · intro h hnan
    simp only [lqrStep, lqrLoop] at h
    rcases Option.map_eq_some'.mp h with ⟨st, hloop, hst⟩
    rcases runLoop_shape _ _ _ _ _ hloop with ⟨hdone, _⟩ | ⟨st2, rfl⟩
    · simp [lqrDone, lqrInit] at hdone
    · subst hst
      exact (lqrTick_post E _ st2).2.2 hnan
  · intro h
    exact runLoop_done _ _ _ _ (by simp [polyDone, h])
  · intro h
    exact runLoop_done _ _ _ _ (by simp [lqrDone, h])

attribute [local semireducible] Rat.add Rat.mul Rat.inv Rat.sub in
/-- C4 witness: on the diverging inner model both variants end truncated,
and an already-truncated loop state is returned unchanged. -/
theorem claim4_witness :
    c4PolyRes.trunc = true ∧ c4LqrRes.trunc = true
      ∧ polyLoop nanEnv (1 / 240) Vec3.zero
          (calc_traj State.default State.default) 3 c4TruncSt = some c4TruncSt
      ∧ lqrLoop nanEnv State.default.to_x 3 c4TruncStL = some c4TruncStL := by
  have h := claim4_nan_truncates nanEnv (1 / 240) State.default Vec3.zero 1 3
      c4PolyRes c4LqrRes (calc_traj State.default State.default) c4TruncSt
      c4TruncStL State.default.to_x
  exact ⟨h.1 (by decide) (by decide), h.2.1 (by decide) (by decide),
         h.2.2.1 rfl, h.2.2.2 rfl⟩

/-- C9: whenever either variant's loop completes from its initial state, it
has executed the body at least once, the observation sequence carries
exactly one entry per executed body, and the States value returned by the
step method is therefore never empty. -/
theorem claim9_body_runs_once_and_counts {S B O : Type} (E : InnerEnv S B O)
    (dt : ℚ) (action : Vec3) (traj : Traj) (fuel fuel2 : ℕ) (s s2 : S)
    (aSt : State) (u : List Flt) (res : PolySt S B) (res2 : LqrSt S B)
    (r r2 : StepRes S B) :
    (polyLoop E dt action traj fuel (polyInit s aSt) = some res →
        res.obss.length = res.ticks ∧ 1 ≤ res.obss.length)
      ∧ (lqrLoop E u fuel2 (lqrInit s2) = some res2 →
        res2.obss.length = res2.ticks ∧ 1 ≤ res2.obss.length)
      ∧ (polyStep E dt s action fuel = some r → r.states ≠ [])
      ∧ (lqrStep E dt s2 action fuel2 = some r2 → r2.states ≠ []) := by
  refine ⟨?_, ?_, ?_, ?_⟩
  · intro h
    constructor
    · exact runLoop_inv _ _ (fun st => st.obss.length = st.ticks)
        (fun st hs => by simp [polyTick, hs]) _ _ _ h (by simp [polyInit])
    · rcases runLoop_shape _ _ _ _ _ h with ⟨hdone, _⟩ | ⟨st2, rfl⟩
      · simp [polyDone, polyInit] at hdone
      · simp [polyTick]
  · intro h
    constructor
    · exact runLoop_inv _ _ (fun st => st.obss.length = st.ticks)
        (fun st hs => by simp [lqrTick, hs]) _ _ _ h (by simp [lqrInit])
    · rcases runLoop_shape _ _ _ _ _ h with ⟨hdone, _⟩ | ⟨st2, rfl⟩
      · simp [lqrDone, lqrInit] at hdone
      · simp [lqrTick]
  · intro h
    simp only [polyStep, polyLoop] at h
    rcases Option.map_eq_some'.mp h with ⟨st, hloop, hst⟩
    rcases runLoop_shape _ _ _ _ _ hloop with ⟨hdone, _⟩ | ⟨st2, rfl⟩
    · simp [polyDone, polyInit] at hdone
    · subst hst
      simp [polyTick]
  · intro h
    simp only [lqrStep, lqrLoop] at h
    rcases Option.map_eq_some'.mp h with ⟨st, hloop, hst⟩
    rcases runLoop_shape _ _ _ _ _ hloop with ⟨hdone, _⟩ | ⟨st2, rfl⟩
    · simp [lqrDone, lqrInit] at hdone
    · subst hst
      simp [lqrTick]

attribute [local semireducible] Rat.add Rat.mul Rat.inv Rat.sub in
/-- C9 witness: completed runs of both variants on the trivial model — one
tick executed, one observation collected, non-empty States returned. -/
theorem claim9_witness :
    (c9PolySt.obss.length = c9PolySt.ticks ∧ 1 ≤ c9PolySt.obss.length)
      ∧ (c9LqrSt.obss.length = c9LqrSt.ticks ∧ 1 ≤ c9LqrSt.obss.length)
      ∧ c9PolyRes.states ≠ [] ∧ c9LqrRes.states ≠ [] := by
  have h := claim9_body_runs_once_and_counts zeroEnv (1 / 240) Vec3.zero
      (calc_traj State.default State.default) 1 1 State.default State.default
      State.default State.default.to_x c9PolySt c9LqrSt c9PolyRes c9LqrRes
  exact ⟨h.1 (by decide), h.2.1 (by decide), h.2.2.1 (by decide),
         h.2.2.2 (by decide)⟩

/-- States with equal projections under a relation have equal maps. -/
theorem forall2_map_eq {R : State → State → Prop} {l1 l2 : List State}
    (h : List.Forall₂ R l1 l2) (f : State → Flt)
    (hf : ∀ a b, R a b → f a = f b) : l1.map f = l2.map f := by
  induction h with
  | nil => rfl
  | cons hab htl ih => simp [List.map_cons, hf _ _ hab, ih]

/-- C7: two state sequences identical in every field except the quaternion
and actuator-magnitude components receive identical rewards. -/
theorem claim7_reward_ignores_quat_and_actuators (dt : ℚ)
    (l1 l2 : List State) (h : List.Forall₂ AgreeExceptQuatProp l1 l2) :
    get_reward dt l1 = get_reward dt l2 := by
  have hlen : l1.length = l2.length := h.length_eq
  have hint : ∀ v : Var,
      (∀ a b, AgreeExceptQuatProp a b → a.get v = b.get v) →
      varIntegral dt l1 v = varIntegral dt l2 v := by
    intro v hv
    unfold varIntegral
    rw [hlen, forall2_map_eq h _ (fun a b hab => by rw [hv a b hab])]
  unfold get_reward
  congr 1
  refine List.map_congr_left ?_
  intro v _
  cases v
  case x => simp only [adjust]; rw [hint _ (fun a b hab => by
    simp only [State.get]; rw [hab.1])]
  case y => simp only [adjust]; rw [hint _ (fun a b hab => by
    simp only [State.get]; rw [hab.1])]
  case z => simp only [adjust]; rw [hint _ (fun a b hab => by
    simp only [State.get]; rw [hab.1])]
  case qx => rfl
  case qy => rfl
  case qz => rfl
  case qw => rfl
  case phi => simp only [adjust]; rw [hint _ (fun a b hab => by
    simp only [State.get]; rw [hab.2.1])]
  case theta => simp only [adjust]; rw [hint _ (fun a b hab => by
    simp only [State.get]; rw [hab.2.1])]
  case psi => simp only [adjust]; rw [hint _ (fun a b hab => by
    simp only [State.get]; rw [hab.2.1])]
  case vx => simp only [adjust]; rw [hint _ (fun a b hab => by
    simp only [State.get]; rw [hab.2.2.1])]
  case vy => simp only [adjust]; rw [hint _ (fun a b hab => by
    simp only [State.get]; rw [hab.2.2.1])]
  case vz => simp only [adjust]; rw [hint _ (fun a b hab => by
    simp only [State.get]; rw [hab.2.2.1])]
  case p => simp only [adjust]; rw [hint _ (fun a b hab => by
    simp only [State.get]; rw [hab.2.2.2])]
  case q => simp only [adjust]; rw [hint _ (fun a b hab => by
    simp only [State.get]; rw [hab.2.2.2])]
  case r => simp only [adjust]; rw [hint _ (fun a b hab => by
    simp only [State.get]; rw [hab.2.2.2])]
  case P0 => rfl
  case P1 => rfl
  case P2 => rfl
  case P3 => rfl

/-- C7 witness: two singleton sequences differing only in quaternion and
actuator fields get the same reward. -/
theorem claim7_witness : get_reward 1 [c7a] = get_reward 1 [c7b] :=
  claim7_reward_ignores_quat_and_actuators 1 [c7a] [c7b]
    (List.Forall₂.cons ⟨rfl, rfl, rfl, rfl⟩ List.Forall₂.nil)

/-- C6 witness: a degenerate episode whose start and end positions coincide
reports duration 0 without a fault. -/
theorem claim6_witness : (calc_traj State.default State.default).T = Flt.val 0 :=
  (claim6_duration_distance_over_maxvel State.default State.default 1).2.2
    rfl rfl rfl rfl
